import Mathlib

/-!
Verification development for the RAG_CHATBOT repository.

The Python sources are shallowly embedded: machine floats used for
similarity scores are modelled as rationals, Python dictionaries whose
keys matter become structures with `Option` fields, Python exceptions
(`AttributeError` on a missing method, `KeyError` on a missing dict key,
wrapped `Exception`s) become an `Except PyError` monad, and a surrounding
`try ... except` handler becomes a `match` that maps any error to the
handler's value.  The external vector index (Qdrant) is modelled by its
documented contract: a search over a collection returns the stored points
whose similarity score for the query reaches the score threshold, sorted
by descending score, truncated to the limit.  Since each stored point's
score is the cosine similarity between its stored vector and the
embedding of the query text, a point is modelled together with its score
as a function of the query text.
-/

namespace RAG

/-- Python runtime errors that the embedded code can raise: attribute
lookup failures, dictionary key lookup failures, and wrapped generic
exceptions (`raise Exception(...)`). -/
inductive PyError where
  | attributeError (name : String)
  | keyError (key : String)
  | genericError (msg : String)
deriving DecidableEq, Repr

/-- Message text of an error, as `str(e)` would render it (abstracted:
only the constructor payload is kept). -/
def PyError.msg : PyError → String
  | .attributeError n => n
  | .keyError k => k
  | .genericError m => m

/-! ### Character and string utilities (Python `str` methods, ASCII) -/

/-- Whitespace characters recognised by Python's `str.split()` and by the
regex class matched by a backslash-s pattern (ASCII subset). -/
def isPySpace (c : Char) : Bool :=
  c = ' ' || c = '\t' || c = '\n' || c = '\r' || c = Char.ofNat 11 || c = Char.ofNat 12

/-- Model of Python `str.lower()` (character-wise). -/
def lowerStr (s : String) : String :=
  String.mk (s.toList.map Char.toLower)

/-- Collect the maximal runs of characters satisfying `p`, left to right,
dropping the characters in between.  `acc` is the current run, reversed. -/
def splitRunsAux (p : Char → Bool) : List Char → List Char → List (List Char)
  | [], acc => if acc.isEmpty then [] else [acc.reverse]
  | c :: rest, acc =>
    if p c then splitRunsAux p rest (c :: acc)
    else if acc.isEmpty then splitRunsAux p rest []
    else acc.reverse :: splitRunsAux p rest []

/-- Model of Python `str.split()` with no argument: the maximal runs of
non-whitespace characters. -/
def pySplitWs (s : String) : List String :=
  (splitRunsAux (fun c => !(isPySpace c)) s.toList []).map String.mk

/-- Word count of a text in the sense used by `pdf_processor.chunk_text`
(`len(section.split())`). -/
def wordCount (s : String) : Nat :=
  (pySplitWs s).length

/-- Maximal runs of decimal digits occurring in a string, in order.  This
is the list of matches of the regex pattern for one-or-more digits as
`re.findall` returns them (`re.findall` scans left to right and the
greedy one-or-more-digits pattern always captures a maximal digit run). -/
def digitRuns (s : String) : List String :=
  (splitRunsAux Char.isDigit s.toList []).map String.mk

/-- Model of Python `str.strip(chars)`: remove the characters of `cs`
from both ends. -/
def pyStrip (cs : List Char) (s : String) : String :=
  String.mk (((s.toList.dropWhile (cs.contains ·)).reverse.dropWhile (cs.contains ·)).reverse)

/-- Model of Python `str.strip()` with no argument (whitespace). -/
def pyStripWs (s : String) : String :=
  String.mk (((s.toList.dropWhile isPySpace).reverse.dropWhile isPySpace).reverse)

/-- Decide whether `needle` occurs at the start of `hay`. -/
def listStartsWith : List Char → List Char → Bool
  | [], _ => true
  | _ :: _, [] => false
  | n :: ns, h :: hs => n = h && listStartsWith ns hs

/-- Decide whether `needle` occurs contiguously anywhere inside `hay`,
the model of Python's `in` operator on strings. -/
def listContainsSub (needle : List Char) : List Char → Bool
  | [] => listStartsWith needle []
  | h :: hs => listStartsWith needle (h :: hs) || listContainsSub needle hs

/-- Model of Python `needle in hay` for strings. -/
def containsSub (hay needle : String) : Bool :=
  listContainsSub needle.toList hay.toList

/-! ### Blank-line splitting

`pdf_processor.chunk_text` splits its input with `re.split` on the
pattern newline, any whitespace, newline.  A match starts at a newline
and extends through the whitespace run that follows it up to the last
newline inside that run (the greedy any-whitespace part backtracks until
the closing newline matches); `re.split` then resumes scanning after the
match.  `afterLastNl w` returns the suffix of `w` strictly after the last
newline of `w`, or `none` when `w` has no newline. -/

def afterLastNl : List Char → Option (List Char)
  | [] => none
  | c :: rest =>
    match afterLastNl rest with
    | some t => some t
    | none => if c = '\n' then some rest else none

/-- Scanner for the blank-line split.  `acc` holds the current fragment,
reversed.  On a newline followed by a whitespace run containing another
newline, the current fragment is closed and scanning resumes after the
last newline of the run.  The `fuel` argument only makes the recursion
structural: every step consumes at least one input character (a match
consumes the initial newline and at least one more), so fuel equal to
the input length never runs out and the fuel-exhausted equation (which
can only fire on a non-empty remainder) is unreachable. -/
def splitSecGo : Nat → List Char → List Char → List (List Char)
  | _, [], acc => [acc.reverse]
  | 0, s, acc => [acc.reverse ++ s]
  | fuel + 1, c :: rest, acc =>
    if c = '\n' then
      match afterLastNl (rest.takeWhile isPySpace) with
      | some t => acc.reverse :: splitSecGo fuel (t ++ rest.dropWhile isPySpace) []
      | none => splitSecGo fuel rest (c :: acc)
    else splitSecGo fuel rest (c :: acc)

/-- Model of the split of a text on blank-line boundaries performed at
pdf_processor.py line 122: the list of sections. -/
def splitSections (s : String) : List String :=
  (splitSecGo s.toList.length s.toList []).map String.mk

/-! ### Configuration constants (config.py) -/

/-- Configured chunk-size word budget (config.py: CHUNK_SIZE = 2000). -/
def CHUNK_SIZE : Nat := 2000

/-- Configured retrieval top-k (config.py: TOP_K = 25). -/
def TOP_K : Nat := 25

/-- Configured text-search similarity threshold (config.py:
SCORE_THRESHOLD = 0). -/
def SCORE_THRESHOLD : ℚ := 0

/-- Configured context-chunk cap (config.py: MAX_CONTEXT_CHUNKS = 12). -/
def MAX_CONTEXT_CHUNKS : Nat := 12

/-- Image-search similarity threshold hard-coded at qdrant_service.py
line 154 (0.3). -/
def IMAGE_THRESHOLD : ℚ := mkRat 3 10

/-- Emergency-search similarity threshold hard-coded at rag_service.py
line 104 (0.01). -/
def EMERGENCY_THRESHOLD : ℚ := mkRat 1 100

/-- Image score boost factor hard-coded at ingestion_pipeline.py line 112
(1.2). -/
def IMAGE_BOOST : ℚ := mkRat 6 5

/-! ### Segmenter (pdf_processor.chunk_text, lines 117-166)

The loop accumulates blank-line-delimited sections into the current
chunk while the running word count stays within the budget; on overflow
it closes the current chunk (tagged with its position as chunk id and
the running word count) and restarts from the overflowing section.  The
structural flags computed over the chunk text (has_code, has_list,
has_table) are not modelled: no claim concerns them and they are not
read anywhere downstream (qdrant_service.add_documents persists only
text, filename, chunk_id and word_count). -/

/-- Text chunk as built by `chunk_text` (text plus the persisted
metadata fields). -/
structure Chunk where
  text : String
  filename : String
  chunk_id : Nat
  word_count : Nat
deriving DecidableEq, Repr

/-- Model of Python `"\n\n".join(sections)`. -/
def joinSections : List String → String
  | [] => ""
  | [s] => s
  | s :: rest => s ++ "\n\n" ++ joinSections rest

/-- Chunk closed at pdf_processor.py lines 136-147 and 152-164: text is
the blank-line join of the accumulated sections, chunk id is the number
of chunks already emitted, word count is the running size. -/
def mkChunk (fn : String) (cid : Nat) (group : List String) (size : Nat) : Chunk :=
  { text := joinSections group, filename := fn, chunk_id := cid, word_count := size }

/-- Direct translation of the accumulation loop of `chunk_text`:
`cur` is `current_chunk`, `size` is `current_size`, `chunks` the output
list built so far. -/
def chunkLoop (cs : Nat) (fn : String) : List String → List String → Nat → List Chunk → List Chunk
  | [], cur, size, chunks =>
    if cur.isEmpty then chunks else chunks ++ [mkChunk fn chunks.length cur size]
  | s :: rest, cur, size, chunks =>
    if size + wordCount s ≤ cs then
      chunkLoop cs fn rest (cur ++ [s]) (size + wordCount s) chunks
    else
      chunkLoop cs fn rest [s] (wordCount s)
        (if cur.isEmpty then chunks else chunks ++ [mkChunk fn chunks.length cur size])

/-- Model of `PDFProcessor.chunk_text(text, filename)` with chunk-size
budget `cs` (the processor reads it from `Config.CHUNK_SIZE`). -/
def chunk_text (cs : Nat) (text fn : String) : List Chunk :=
  chunkLoop cs fn (splitSections text) [] 0 []

/-! ### Embedding service (embedding_service.py)

The class body of `EmbeddingService` (lines 7-45) defines exactly the
methods `__init__`, `embed_texts` and `_normalize_embedding`.  Python
attribute lookup for any other method name raises `AttributeError`; in
particular every call of `embed_single_text` (rag_service.py lines 79
and 102, ingestion_pipeline.py lines 90 and 133) raises.  The embedding
call sites are modelled by a parameter of this type so that the stage
logic downstream of the defect can also be analysed under a working
provider; the vector itself is not materialised because the index model
keys every stored point's similarity score directly by the query text
(the composition of the embedding provider with cosine similarity). -/

/-- Outcome of evaluating `self.embedding_service.embed_single_text(q)`. -/
def EmbedCall : Type := String → Except PyError Unit

/-- Method names defined by the `EmbeddingService` class body. -/
def embeddingServiceMethods : List String :=
  ["__init__", "embed_texts", "_normalize_embedding"]

/-- Faithful model of the call `embedding_service.embed_single_text(q)`:
the attribute does not exist, so the call raises `AttributeError`. -/
def embedMissing : EmbedCall := fun _ => .error (.attributeError "embed_single_text")

/-- Hypothetical working embedding provider, used to analyse the
retrieval stage logic downstream of the missing-method defect. -/
def embedOk : EmbedCall := fun _ => .ok ()

/-! ### Qdrant collections (qdrant_service.py) -/

/-- Payload stored for a text chunk by `add_documents` (qdrant_service.py
lines 65-71); the constant `content_type: 'text'` entry is implicit in
the type. -/
structure TextPayload where
  text : String
  filename : String
  chunk_id : Nat
  word_count : Nat
deriving DecidableEq, Repr

/-- Payload of a point in the image collection, as a record of the keys
that can be present.  A key holds `none` when the stored dict has no
such entry, and reading it then raises `KeyError`. -/
structure ImagePayload where
  image_path : Option String
  image_filename : Option String
  caption : Option String
  page_number : Option Nat
  pdf_filename : Option String
  image_id : Option String
  width : Option Nat
  height : Option Nat
deriving DecidableEq, Repr

/-- Image record produced by `PDFProcessor.extract_text_and_images_from_pdf`
(pdf_processor.py lines 55-65). -/
structure ImageInfo where
  image_path : String
  image_filename : String
  page_number : Nat
  image_index : Nat
  caption : String
  pdf_filename : String
  image_id : String
  width : Nat
  height : Nat
deriving DecidableEq, Repr

/-- Payload stored for an image by `QdrantService.add_images`
(qdrant_service.py lines 98-103): the dict literal holds exactly the
keys image_path, caption, page_number and pdf_filename, and none of
image_filename, image_id, width, height. -/
def addImagesPayload (info : ImageInfo) : ImagePayload :=
  { image_path := some info.image_path
    image_filename := none
    caption := some info.caption
    page_number := some info.page_number
    pdf_filename := some info.pdf_filename
    image_id := none
    width := none
    height := none }

/-- State of the external vector index for one fixed corpus: each stored
point together with its similarity score as a function of the query
text. -/
structure World where
  textPoints : List (TextPayload × (String → ℚ))
  imagePoints : List (ImagePayload × (String → ℚ))

/-- Result dict of one retrieval strategy.  Text results are the dicts
built at qdrant_service.py lines 133-140 (and rag_service.py lines
108-114); image results are the dicts built at qdrant_service.py lines
159-170.  An image result dict has no 'filename' or 'chunk_id' key. -/
inductive Candidate where
  | text (text filename : String) (chunk_id word_count : Nat) (score : ℚ)
  | image (image_path image_filename caption pdf_filename image_id : String)
      (page_number width height : Nat) (score : ℚ)
deriving DecidableEq, Repr

/-- Score of a candidate ('score' key of the result dict). -/
def Candidate.score : Candidate → ℚ
  | .text _ _ _ _ sc => sc
  | .image _ _ _ _ _ _ _ _ sc => sc

/-- Replace the score (the in-place `result['score'] = ...` update). -/
def Candidate.withScore (c : Candidate) (sc : ℚ) : Candidate :=
  match c with
  | .text t fn cid wc _ => .text t fn cid wc sc
  | .image ip ifn cap pfn iid pn wd ht _ => .image ip ifn cap pfn iid pn wd ht sc

/-- Whether the result dict is a text result. -/
def Candidate.isText : Candidate → Bool
  | .text _ _ _ _ _ => true
  | .image _ _ _ _ _ _ _ _ _ => false

/-- Whether the result dict is an image result. -/
def Candidate.isImage : Candidate → Bool
  | .text _ _ _ _ _ => false
  | .image _ _ _ _ _ _ _ _ _ => true

/-- Stable insertion of `x` into a list sorted by descending `key`,
after every element of strictly greater key and before every element of
smaller-or-equal key. -/
def insertScoreDesc (key : α → ℚ) (x : α) : List α → List α
  | [] => [x]
  | y :: ys => if key x < key y then y :: insertScoreDesc key x ys else x :: y :: ys

/-- Stable sort by descending `key`, the behaviour of Python's
`list.sort(key=..., reverse=True)` and of the score ordering of Qdrant
search responses. -/
def sortScoreDesc (key : α → ℚ) : List α → List α
  | [] => []
  | x :: xs => insertScoreDesc key x (sortScoreDesc key xs)

/-- Contract of `client.search(collection, query_vector, limit,
score_threshold)`: the stored points scoring at least the threshold for
this query, sorted by descending score, truncated to the limit. -/
def clientSearch (points : List (α × (String → ℚ))) (q : String) (lim : Nat) (θ : ℚ) :
    List (α × ℚ) :=
  (sortScoreDesc Prod.snd ((points.map (fun p => (p.1, p.2 q))).filter
    (fun p => θ ≤ p.2))).take lim

/-- Text result dict built from a hit (qdrant_service.py lines 133-140;
the emergency loop at rag_service.py lines 107-114 builds the same
fields, reading word_count with a `.get` default that never fires
because `add_documents` always stores it). -/
def mkTextCandidate (h : TextPayload × ℚ) : Candidate :=
  .text h.1.text h.1.filename h.1.chunk_id h.1.word_count h.2

/-- Model of `QdrantService.search_text_similar` (lines 121-145): a text
search with the configured threshold, results converted to dicts.  The
index contract itself cannot fail here, so the method's own
exception-wrapping re-raise is never exercised. -/
def search_text_similar (w : World) (q : String) (lim : Nat) : List Candidate :=
  (clientSearch w.textPoints q lim SCORE_THRESHOLD).map mkTextCandidate

/-- Read a payload key, raising `KeyError` when absent. -/
def requireKey (o : Option α) (k : String) : Except PyError α :=
  match o with
  | some v => .ok v
  | none => .error (.keyError k)

/-- Conversion of one image hit into a result dict (qdrant_service.py
lines 159-170), reading the payload keys in source order; reading a key
that `add_images` never stored raises `KeyError`. -/
def imageHitResult (p : ImagePayload) (sc : ℚ) : Except PyError Candidate := do
  let ip ← requireKey p.image_path "image_path"
  let ifn ← requireKey p.image_filename "image_filename"
  let cap ← requireKey p.caption "caption"
  let pn ← requireKey p.page_number "page_number"
  let pfn ← requireKey p.pdf_filename "pdf_filename"
  let iid ← requireKey p.image_id "image_id"
  let wd ← requireKey p.width "width"
  let ht ← requireKey p.height "height"
  pure (.image ip ifn cap pfn iid pn wd ht sc)

/-- Conversion loop over the hits of an image search, stopping at the
first raising hit, as the Python for-loop does. -/
def mapExcept (f : α → Except PyError β) : List α → Except PyError (List β)
  | [] => .ok []
  | x :: xs => do
    let y ← f x
    let ys ← mapExcept f xs
    pure (y :: ys)

/-- Body of `QdrantService.search_images_similar` (lines 147-172):
search the image collection with threshold 0.3 and convert each hit. -/
def searchImagesSimilarBody (w : World) (q : String) (lim : Nat) :
    Except PyError (List Candidate) :=
  mapExcept (fun h => imageHitResult h.1 h.2) (clientSearch w.imagePoints q lim IMAGE_THRESHOLD)

/-- Model of `QdrantService.search_images_similar` including its
`except` clause, which wraps any error and re-raises (lines 174-175). -/
def search_images_similar (w : World) (q : String) (lim : Nat) :
    Except PyError (List Candidate) :=
  match searchImagesSimilarBody w q lim with
  | .ok r => .ok r
  | .error e => .error (.genericError ("Error searching images: " ++ e.msg))

/-- Model of `QdrantService.search_multimodal` (lines 181-199): a text
search and an image search; an image-search error propagates (re-raised
wrapped, lines 198-199). -/
def search_multimodal (w : World) (q : String) (tl il : Nat) :
    Except PyError (List Candidate × List Candidate) :=
  match search_images_similar w q il with
  | .ok imgs => .ok (search_text_similar w q tl, imgs)
  | .error e => .error (.genericError ("Error in multimodal search: " ++ e.msg))

/-! ### Query classification and extraction -/

/-- Visual keyword vocabulary of `IngestionPipeline._is_visual_query`
(ingestion_pipeline.py lines 75-79). -/
def visualKeywords : List String :=
  ["figure", "fig", "diagram", "chart", "graph", "image", "picture",
   "illustration", "screenshot", "photo", "table", "show me",
   "display", "visual", "drawing", "plot", "map"]

/-- Model of `IngestionPipeline._is_visual_query` (lines 73-82):
substring containment of any visual keyword in the lowered query. -/
def is_visual_query (q : String) : Bool :=
  visualKeywords.any (fun kw => containsSub (lowerStr q) kw)

/-- Stop-word set of `RAGService._extract_keywords` (rag_service.py
line 173). -/
def stopWords : List String :=
  ["what", "is", "this", "document", "about", "who", "how", "when", "where",
   "why", "the", "a", "an", "and", "or", "but", "in", "on", "at", "to",
   "for", "of", "with"]

/-- Punctuation characters stripped from keywords (rag_service.py
line 175). -/
def keywordStripChars : List Char :=
  ['.', ',', '!', '?', ';', ':', '"', '(', ')']

/-- Model of `RAGService._extract_keywords` (lines 170-176): lower the
question, split on whitespace, keep words that are not stop words and
are longer than 2 characters, strip surrounding punctuation. -/
def extract_keywords (q : String) : List String :=
  ((pySplitWs (lowerStr q)).filter
    (fun word => !(stopWords.contains word) && decide (2 < word.length))).map
    (pyStrip keywordStripChars)

/-- Structural-unit words of the reference strings generated at
rag_service.py lines 157-165.  The generation list holds these seven
words plus the bare number; 'exercise' and the abbreviations 'ch' and
'p' occur only among the detection patterns (lines 140-149), never in
the generated strings. -/
def refUnitWords : List String :=
  ["chapter", "section", "part", "page", "lesson", "unit", "module"]

/-- Model of `RAGService._extract_any_references` (lines 133-168).  The
eleven findall patterns together capture exactly the maximal digit runs
of the lowered question: the bare one-or-more-digits pattern alone
already captures every maximal digit run, and each keyword-prefixed
pattern captures a digit run that the bare pattern also captures.  For
every captured number the same eight strings are appended, so after the
final `list(set(...))` the result is, up to the unspecified set order,
the deduplicated list modelled here. -/
def extract_any_references (q : String) : List String :=
  (((digitRuns (lowerStr q)).map
    (fun n => refUnitWords.map (fun w => w ++ " " ++ n) ++ [n])).flatten).dedup

/-! ### search_documents (ingestion_pipeline.py lines 84-127) -/

/-- Boost applied to an image result score for a visual query
(ingestion_pipeline.py line 112): `min(score * 1.2, 1.0)`. -/
def boostImage (c : Candidate) : Candidate :=
  c.withScore (min (c.score * IMAGE_BOOST) 1)

/-- Body of `IngestionPipeline.search_documents` inside its `try`,
parameterised by the embedding call outcome.  Visual branch: multimodal
search, boost image scores, merge, sort by descending score, truncate
to `top_k + 5`.  Non-visual branch: plain text search with limit
`top_k`. -/
def searchDocumentsBody (ec : EmbedCall) (w : World) (q : String) (topk : Nat) :
    Except PyError (List Candidate) := do
  let _ ← ec q
  if is_visual_query q then do
    match search_multimodal w q topk 5 with
    | .ok (ts, imgs) =>
        pure ((sortScoreDesc Candidate.score (ts ++ imgs.map boostImage)).take (topk + 5))
    | .error e => .error e
  else
    pure (search_text_similar w q topk)

/-- Model of `IngestionPipeline.search_documents` including its
catch-all `except`, which recovers any error as the empty list
(lines 125-127). -/
def search_documents (ec : EmbedCall) (w : World) (q : String) (topk : Nat) :
    List Candidate :=
  match searchDocumentsBody ec w q topk with
  | .ok r => r
  | .error _ => []

/-! ### smart retrieval (rag_service.py lines 72-131) -/

/-- Deduplication key read at rag_service.py line 120:
`f"{result['filename']}_{result['chunk_id']}"`.  An image result dict
has no 'filename' key, so the lookup raises `KeyError`. -/
def candDedupKey : Candidate → Except PyError String
  | .text _ fn cid _ _ => .ok (fn ++ "_" ++ toString cid)
  | .image _ _ _ _ _ _ _ _ _ => .error (.keyError "filename")

/-- Deduplication loop of `_smart_retrieval` (lines 117-123): keep the
first result for each key, tracking seen keys. -/
def dedupLoop : List Candidate → List String → List Candidate → Except PyError (List Candidate)
  | [], _, uniq => .ok uniq
  | r :: rest, seen, uniq =>
    match candDedupKey r with
    | .error e => .error e
    | .ok k =>
      if seen.contains k then dedupLoop rest seen uniq
      else dedupLoop rest (k :: seen) (uniq ++ [r])

/-- Deduplicated result list (first-seen kept), or the error raised on
the first result lacking the key. -/
def dedupResults (rs : List Candidate) : Except PyError (List Candidate) :=
  dedupLoop rs [] []

/-- Body of `RAGService._smart_retrieval` inside its `try`.  Strategy 1:
broad text search with limit `top_k * 4` (the embedding call is
evaluated first, as the argument of the search).  Strategy 2: one
`search_documents(keyword, top_k * 2)` per extracted keyword.  Strategy
3: one `search_documents(term, top_k)` per extracted reference.
Strategy 4, only when everything so far is empty: an emergency text
search with threshold 0.01 and limit `top_k * 5`.  Then deduplicate,
sort by descending score, truncate to `top_k * 3`. -/
def smartRetrievalBody (ec : EmbedCall) (w : World) (q : String) (topk : Nat) :
    Except PyError (List Candidate) := do
  let _ ← ec q
  let broad := search_text_similar w q (topk * 4)
  let all2 := broad ++ ((extract_keywords q).map
    (fun kw => search_documents ec w kw (topk * 2))).flatten
  let all3 := all2 ++ ((extract_any_references q).map
    (fun t => search_documents ec w t topk)).flatten
  let all4 ←
    if all3.isEmpty then do
      let _ ← ec q
      pure (all3 ++ (clientSearch w.textPoints q (topk * 5) EMERGENCY_THRESHOLD).map
        mkTextCandidate)
    else pure all3
  let uniq ← dedupResults all4
  pure ((sortScoreDesc Candidate.score uniq).take (topk * 3))

/-- Model of `RAGService._smart_retrieval` including its catch-all
`except`, which recovers any error as the empty list (lines 129-131). -/
def smart_retrieval (ec : EmbedCall) (w : World) (q : String) (topk : Nat) :
    List Candidate :=
  match smartRetrievalBody ec w q topk with
  | .ok r => r
  | .error _ => []

/-! ### Index searches issued by the retriever

To speak about which searches the retriever issues (stage structure,
limits, thresholds) the call sequence is transcribed from the same
control flow, for a working embedding provider (with the missing
`embed_single_text` the body raises before any search is issued). -/

/-- One `client.search` call against a collection. -/
inductive SearchCall where
  | text (q : String) (lim : Nat) (θ : ℚ)
  | image (q : String) (lim : Nat) (θ : ℚ)
deriving DecidableEq, Repr

/-- Searches issued by one `search_documents(q, top_k)` call under a
working embedding provider: the visual branch searches the text
collection with limit `top_k` and the image collection with limit 5 and
threshold 0.3; the other branch only the text collection. -/
def searchDocumentsCalls (q : String) (topk : Nat) : List SearchCall :=
  if is_visual_query q then
    [.text q topk SCORE_THRESHOLD, .image q 5 IMAGE_THRESHOLD]
  else
    [.text q topk SCORE_THRESHOLD]

/-- Result union of Strategies 1-3 of `_smart_retrieval` under a working
embedding provider, used for the Strategy 4 trigger condition. -/
def smartRetrievalStage3 (w : World) (q : String) (topk : Nat) : List Candidate :=
  search_text_similar w q (topk * 4)
    ++ ((extract_keywords q).map (fun kw => search_documents embedOk w kw (topk * 2))).flatten
    ++ ((extract_any_references q).map (fun t => search_documents embedOk w t topk)).flatten

/-- Searches issued by `_smart_retrieval(q, top_k)` under a working
embedding provider, in order: the Strategy 1 broad search with limit
`top_k * 4`; the `search_documents` fan-out per keyword (limit
`top_k * 2`) and per reference (limit `top_k`), issued whenever the
respective extraction list is non-empty; and the Strategy 4 emergency
search (limit `top_k * 5`, threshold 0.01) only when Strategies 1-3
produced nothing. -/
def smartRetrievalCalls (w : World) (q : String) (topk : Nat) : List SearchCall :=
  [SearchCall.text q (topk * 4) SCORE_THRESHOLD]
    ++ ((extract_keywords q).map (fun kw => searchDocumentsCalls kw (topk * 2))).flatten
    ++ ((extract_any_references q).map (fun t => searchDocumentsCalls t topk)).flatten
    ++ (if (smartRetrievalStage3 w q topk).isEmpty then
          [SearchCall.text q (topk * 5) EMERGENCY_THRESHOLD]
        else [])

/-! ### Answer generation (rag_service.generate_answer, lines 18-70) -/

/-- Source entry of the answer dict (lines 43-47). -/
structure SourceRef where
  filename : String
  chunk_id : Nat
  score : ℚ
deriving DecidableEq, Repr

/-- Answer dict returned by `generate_answer`.  The two count keys are
only present on the success path, hence optional. -/
structure Answer where
  answer : String
  sources : List SourceRef
  confidence : ℚ
  retrieved_docs_count : Option Nat
  context_chunks_used : Option Nat
deriving DecidableEq, Repr

/-- Answer returned when retrieval produced nothing (lines 27-32). -/
def noInfoAnswer : Answer :=
  { answer := "I couldn't find any relevant information in the uploaded documents to answer your question."
    sources := []
    confidence := 0
    retrieved_docs_count := none
    context_chunks_used := none }

/-- Answer returned by the catch-all `except` of `generate_answer`
(lines 65-70). -/
def errorAnswer (e : PyError) : Answer :=
  { answer := "An error occurred while processing your question: " ++ e.msg
    sources := []
    confidence := 0
    retrieved_docs_count := none
    context_chunks_used := none }

/-- Model of `RAGService._generate_with_gemini` (lines 178-236): the
Gemini call outcome is a parameter; the method's own `except` converts a
generation error into an error string (line 236), and a blank generated
text into a fallback sentence (line 233), so the method itself never
raises. -/
def generate_with_gemini (gen : Except String String) : String :=
  match gen with
  | .ok s => if pyStripWs s = "" then
      "I couldn't generate an answer based on the provided context."
    else pyStripWs s
  | .error e => "Error generating answer with Gemini: " ++ e

/-- Source entry built from a retrieved doc dict (lines 43-47), reading
the keys 'filename' and 'chunk_id' (absent from an image result dict). -/
def docSource : Candidate → Except PyError SourceRef
  | .text _ fn cid _ sc => .ok { filename := fn, chunk_id := cid, score := sc }
  | .image _ _ _ _ _ _ _ _ _ => .error (.keyError "filename")

/-- Body of `generate_answer` inside its `try`, parameterised by the
retrieval outcome (`_smart_retrieval` recovers its own errors as an
empty list, so a list is received here) and the generation outcome.
Empty retrieval short-circuits (lines 27-32); otherwise the top
`min(MAX_CONTEXT_CHUNKS, len(docs))` docs give the sources and the
average score gives the confidence (lines 39-63). -/
def generateAnswerBody (docs : List Candidate) (gen : Except String String) :
    Except PyError Answer := do
  if docs.isEmpty then
    pure noInfoAnswer
  else
    let maxChunks := min MAX_CONTEXT_CHUNKS docs.length
    let used := docs.take maxChunks
    let sources ← mapExcept docSource used
    let ans := generate_with_gemini gen
    let avg := (used.map Candidate.score).sum / (maxChunks : ℚ)
    pure { answer := ans
           sources := sources
           confidence := avg
           retrieved_docs_count := some docs.length
           context_chunks_used := some maxChunks }

/-- Model of `RAGService.generate_answer` including its catch-all
`except` (lines 65-70). -/
def generate_answer (docs : List Candidate) (gen : Except String String) : Answer :=
  match generateAnswerBody docs gen with
  | .ok a => a
  | .error e => errorAnswer e

/-! ### Specification helpers and concrete instances used in the
theorems below -/

/-- First-seen filter equivalent to the deduplication loop on key-carrying
results: keep a result when its key is new, remembering it. -/
def keepNew : List Candidate → List String → List Candidate
  | [], _ => []
  | r :: rest, seen =>
    match candDedupKey r with
    | .ok k => if seen.contains k then keepNew rest seen else r :: keepNew rest (k :: seen)
    | .error _ => []

/-- Text point used in concrete index instances. -/
def tp (t fn : String) (cid wc : Nat) : TextPayload :=
  { text := t, filename := fn, chunk_id := cid, word_count := wc }

/-- Index holding exactly one text point, similarity 9/10 for every
query, and no images. -/
def oneDocWorld : World :=
  { textPoints := [(tp "alpha beta" "doc.pdf" 0 2, fun _ => mkRat 9 10)]
    imagePoints := [] }

/-- Index holding four text points of one document, similarity 9/10 for
every query, and no images. -/
def fourDocWorld : World :=
  { textPoints :=
      [(tp "s0" "doc.pdf" 0 1, fun _ => mkRat 9 10),
       (tp "s1" "doc.pdf" 1 1, fun _ => mkRat 9 10),
       (tp "s2" "doc.pdf" 2 1, fun _ => mkRat 9 10),
       (tp "s3" "doc.pdf" 3 1, fun _ => mkRat 9 10)]
    imagePoints := [] }

/-- Index holding three text points of one document, similarity 9/10 for
every query, and no images. -/
def threeDocWorld : World :=
  { textPoints :=
      [(tp "s0" "doc.pdf" 0 1, fun _ => mkRat 9 10),
       (tp "s1" "doc.pdf" 1 1, fun _ => mkRat 9 10),
       (tp "s2" "doc.pdf" 2 1, fun _ => mkRat 9 10)]
    imagePoints := [] }

/-- Image record for a concrete ingested image. -/
def imgInfo0 : ImageInfo :=
  { image_path := "extracted_images/doc_page_2_img_1.png"
    image_filename := "doc_page_2_img_1.png"
    page_number := 2
    image_index := 1
    caption := "Figure 2: revenue trend"
    pdf_filename := "doc.pdf"
    image_id := "img-uuid-1"
    width := 640
    height := 480 }

/-- Index holding one text point and one image point whose payload was
written by `add_images`, both scoring 1/2 for every query. -/
def imgWorld : World :=
  { textPoints := [(tp "alpha beta" "doc.pdf" 0 2, fun _ => mkRat 1 2)]
    imagePoints := [(addImagesPayload imgInfo0, fun _ => mkRat 1 2)] }

/-- Image result dict as `search_images_similar` would build it. -/
def imgCand : Candidate :=
  .image "extracted_images/doc_page_2_img_1.png" "doc_page_2_img_1.png"
    "Figure 2: revenue trend" "doc.pdf" "img-uuid-1" 2 640 480 (mkRat 1 2)

/-- Text result dicts used in concrete deduplication instances. -/
def tCand1 : Candidate := .text "s0" "a.pdf" 0 3 (mkRat 9 10)

/-- Second distinct text result dict. -/
def tCand2 : Candidate := .text "s1" "a.pdf" 1 2 (mkRat 4 5)

/-- Text result dict used in the answer-generation instances. -/
def tCand3 : Candidate := .text "body text" "f.pdf" 0 3 (mkRat 4 5)

/-- Predicate for carrying the deduplication key `k` (false for image
results, whose key lookup raises). -/
def hasDedupKey (k : String) (r : Candidate) : Bool :=
  match candDedupKey r with
  | .ok k2 => k2 = k
  | .error _ => false

end RAG

namespace RAG

/-! ## Claim theorems -/

/-- Claim C1.  Every retrieval path (`RAGService._smart_retrieval` and
`IngestionPipeline.search_documents`) calls
`EmbeddingService.embed_single_text`, a method the `EmbeddingService`
class does not define; the call raises `AttributeError`, the
surrounding catch-all handler absorbs it, and both operations return
the empty result list regardless of the index contents and of the
query. -/
theorem claim1_embed_single_text_missing :
    ∀ (w : World) (q : String) (topk : Nat),
      embeddingServiceMethods.contains "embed_single_text" = false ∧
      smartRetrievalBody embedMissing w q topk
        = .error (.attributeError "embed_single_text") ∧
      smart_retrieval embedMissing w q topk = [] ∧
      searchDocumentsBody embedMissing w q topk
        = .error (.attributeError "embed_single_text") ∧
      search_documents embedMissing w q topk = [] := by
  intro w q topk
  exact ⟨by decide, rfl, rfl, rfl, rfl⟩

/-- Claim C3 (code bug).  The emergency-stage guarantee fails on the
code: with a non-empty text index (one point of similarity 9/10) and
any query, `_smart_retrieval` raises `AttributeError` at Strategy 1
(the `EmbeddingService` has no `embed_single_text`), the catch-all
handler recovers the error, and the retriever returns the empty list
instead of at least one candidate. -/
theorem claim3_emergency_guarantee_fails_on_code :
    oneDocWorld.textPoints.length = 1 ∧
    smartRetrievalBody embedMissing oneDocWorld "any question" 5
      = .error (.attributeError "embed_single_text") ∧
    smart_retrieval embedMissing oneDocWorld "any question" 5 = [] :=
  ⟨rfl, rfl, rfl⟩

/-- Claim C7 counterexample.  A candidate list holding two image
candidates with the same identity key `image_id` does not fuse to
exactly one candidate with that key: the deduplication loop reads
`result['filename']`, which an image result dict does not have, so it
raises `KeyError` and produces no output list at all. -/
theorem claim7_counterexample :
    dedupResults [imgCand, imgCand] = .error (.keyError "filename") ∧
    ¬ ∃ out, dedupResults [imgCand, imgCand] = .ok out := by
  refine ⟨rfl, ?_⟩
  rintro ⟨out, h⟩
  rw [show dedupResults [imgCand, imgCand] = .error (.keyError "filename") from rfl] at h
  exact Except.noConfusion h

/-- Helper: on an all-text result list the deduplication loop succeeds
and equals the first-seen filter with the given seen set and prefix. -/
theorem dedupLoop_eq_keepNew : ∀ (rs : List Candidate) (seen : List String) (uniq : List Candidate),
    (∀ r ∈ rs, r.isText = true) →
    dedupLoop rs seen uniq = .ok (uniq ++ keepNew rs seen) := by
  intro rs
  induction rs with
  | nil => intro seen uniq _; simp [dedupLoop, keepNew]
  | cons r rest ih =>
    intro seen uniq h
    have hr : r.isText = true := h r (by simp)
    cases r with
    | image ip ifn cap pfn iid pn wd ht sc => simp [Candidate.isText] at hr
    | text t fn cid wc sc =>
      have hrest : ∀ x ∈ rest, x.isText = true := fun x hx => h x (by simp [hx])
      by_cases hc : (fn ++ "_" ++ toString cid) ∈ seen
      · simp [dedupLoop, keepNew, candDedupKey, hc, ih seen uniq hrest]
      · simp [dedupLoop, keepNew, candDedupKey, hc, ih _ _ hrest]

/-- Helper: among the kept results, the occurrences of an unseen key `k`
are exactly the first occurrence of `k` in the input. -/
theorem keepNew_filter (k : String) : ∀ (rs : List Candidate) (seen : List String),
    (∀ r ∈ rs, r.isText = true) →
    (keepNew rs seen).filter (hasDedupKey k)
      = if k ∈ seen then [] else ((rs.filter (hasDedupKey k)).take 1) := by
  intro rs
  induction rs with
  | nil => intro seen _; simp [keepNew]
  | cons r rest ih =>
    intro seen h
    have hr : r.isText = true := h r (by simp)
    cases r with
    | image ip ifn cap pfn iid pn wd ht sc => simp [Candidate.isText] at hr
    | text t fn cid wc sc =>
      have hrest : ∀ x ∈ rest, x.isText = true := fun x hx => h x (by simp [hx])
      by_cases hc : (fn ++ "_" ++ toString cid) ∈ seen
      · by_cases hk : (fn ++ "_" ++ toString cid) = k
        · subst hk
          simp [keepNew, candDedupKey, hasDedupKey, hc, ih seen hrest]
        · simp [keepNew, candDedupKey, hasDedupKey, hc, ih seen hrest, hk]
      · by_cases hk : (fn ++ "_" ++ toString cid) = k
        · subst hk
          simp [keepNew, candDedupKey, hasDedupKey, hc, ih _ hrest]
        · have hk2 : ¬(k = fn ++ "_" ++ toString cid) := fun e => hk e.symm
          simp [keepNew, candDedupKey, hasDedupKey, hc, ih _ hrest, hk, hk2]

/-- Claim C7 amended.  The deduplication applies only to text
candidates: on a candidate list of text results, the fused output
retains, for every identity key (the string filename-underscore-chunk_id
read at rag_service.py line 120), exactly the first-seen candidate with
that key; a list containing an image candidate instead makes the loop
raise `KeyError` on the missing 'filename' key (see the counterexample),
and the `search_documents` fusion path performs no deduplication at
all. -/
theorem claim7_dedup_text_first_seen (rs : List Candidate)
    (h : ∀ r ∈ rs, r.isText = true) :
    ∃ out, dedupResults rs = .ok out ∧
      ∀ k, out.filter (hasDedupKey k) = (rs.filter (hasDedupKey k)).take 1 := by
  refine ⟨keepNew rs [], ?_, ?_⟩
  · have := dedupLoop_eq_keepNew rs [] [] h
    simpa [dedupResults] using this
  · intro k
    have := keepNew_filter k rs [] h
    simpa using this

/-- Claim C7 witness: concrete all-text list with a duplicated
`(filename, chunk_id)` key. -/
theorem claim7_witness :
    (∀ r ∈ [tCand1, tCand1, tCand2], r.isText = true) ∧
    ∃ out, dedupResults [tCand1, tCand1, tCand2] = .ok out ∧
      ∀ k, out.filter (hasDedupKey k)
        = ([tCand1, tCand1, tCand2].filter (hasDedupKey k)).take 1 :=
  ⟨by decide, claim7_dedup_text_first_seen _ (by decide)⟩

/-- Claim C9 counterexample.  The query `what is in chapter 3?` has the
standalone integer token `3`, yet the reference set does not contain
`exercise 3`: the generation list at rag_service.py lines 157-165 holds
only seven structural-unit words (chapter, section, part, page, lesson,
unit, module) plus the bare number; 'exercise' appears only among the
detection patterns. -/
theorem claim9_counterexample :
    "3" ∈ digitRuns (lowerStr "what is in chapter 3?") ∧
    "exercise 3" ∉ extract_any_references "what is in chapter 3?" := by decide

/-- Claim C9 amended.  For every maximal digit run `n` of the lowered
query, the deduplicated, order-independent reference set contains the
concatenation of each of the seven generated structural-unit words with
`n`, plus the bare number `n` itself ('exercise' is matched but never
generated). -/
theorem claim9_reference_generation (q n : String) (hn : n ∈ digitRuns (lowerStr q)) :
    (∀ u ∈ refUnitWords, (u ++ " " ++ n) ∈ extract_any_references q) ∧
    n ∈ extract_any_references q ∧
    (extract_any_references q).Nodup := by
  refine ⟨?_, ?_, List.nodup_dedup _⟩
  · intro u hu
    rw [extract_any_references, List.mem_dedup, List.mem_flatten]
    refine ⟨refUnitWords.map (fun w => w ++ " " ++ n) ++ [n], List.mem_map_of_mem _ hn, ?_⟩
    exact List.mem_append_left _ (List.mem_map_of_mem _ hu)
  · rw [extract_any_references, List.mem_dedup, List.mem_flatten]
    refine ⟨refUnitWords.map (fun w => w ++ " " ++ n) ++ [n], List.mem_map_of_mem _ hn, ?_⟩
    exact List.mem_append_right _ (by simp)

/-- Claim C9 witness: the spec's recall example.  The query
`what is in chapter 3?` yields a reference set containing `chapter 3`
and `3`. -/
theorem claim9_witness :
    ("3" ∈ digitRuns (lowerStr "what is in chapter 3?")) ∧
    "chapter 3" ∈ extract_any_references "what is in chapter 3?" ∧
    "3" ∈ extract_any_references "what is in chapter 3?" ∧
    (extract_any_references "what is in chapter 3?").Nodup := by
  have h := claim9_reference_generation "what is in chapter 3?" "3" (by decide)
  exact ⟨by decide, h.1 "chapter" (by decide), h.2.1, h.2.2⟩

/-- Helper: invariant of the `chunk_text` accumulation loop.  Given that
the running size is the word-count sum of the current group and that the
current group is within budget or a single section, the loop appends
chunks that partition the remaining sections (prefixed by the current
group) into non-empty groups, with each chunk's text the blank-line
join of its group, its word count the group's word-count sum, its chunk
id its position, and each group within budget or a single section. -/
theorem chunkLoopSpec (cs : Nat) (fn : String) :
    ∀ (secs cur : List String) (size : Nat) (chunks : List Chunk),
    size = (cur.map wordCount).sum →
    (size ≤ cs ∨ ∃ s, cur = [s]) →
    ∃ (groups : List (List String)) (emitted : List Chunk),
      chunkLoop cs fn secs cur size chunks = chunks ++ emitted ∧
      groups.flatten = cur ++ secs ∧
      (∀ g ∈ groups, g ≠ []) ∧
      emitted.map Chunk.text = groups.map joinSections ∧
      emitted.map Chunk.word_count = groups.map (fun g => (g.map wordCount).sum) ∧
      emitted.map Chunk.chunk_id = List.range' chunks.length emitted.length ∧
      (∀ g ∈ groups, (g.map wordCount).sum ≤ cs ∨ ∃ s, g = [s]) ∧
      (∀ c ∈ emitted, ∃ g ∈ groups, c.text = joinSections g ∧
        c.word_count = (g.map wordCount).sum) := by
  intro secs
  induction secs with
  | nil =>
    intro cur size chunks hsize hinv
    cases cur with
    | nil =>
      exact ⟨[], [], by simp [chunkLoop], by simp, by simp, by simp, by simp, by simp,
        by simp, by simp⟩
    | cons c cur2 =>
      refine ⟨[c :: cur2], [mkChunk fn chunks.length (c :: cur2) size],
        by simp [chunkLoop], by simp, ?_, by simp [mkChunk], by simp [mkChunk, hsize],
        by simp [mkChunk, List.range'], ?_, ?_⟩
      · intro g hg
        simp at hg
        subst hg
        simp
      · intro g hg
        simp at hg
        subst hg
        rw [← hsize]
        exact hinv.imp id (fun h => h)
      · intro ch hch
        simp at hch
        subst hch
        exact ⟨c :: cur2, by simp, by simp [mkChunk], by simp [mkChunk, hsize]⟩
  | cons s rest ih =>
    intro cur size chunks hsize hinv
    by_cases hle : size + wordCount s ≤ cs
    · have hsize' : size + wordCount s = ((cur ++ [s]).map wordCount).sum := by
        simp [hsize]
      obtain ⟨groups, emitted, h1, h2, h3, h4, h5, h6, h7, h8⟩ :=
        ih (cur ++ [s]) (size + wordCount s) chunks hsize' (Or.inl hle)
      refine ⟨groups, emitted, ?_, ?_, h3, h4, h5, h6, h7, h8⟩
      · simpa [chunkLoop, hle] using h1
      · rw [h2]
        simp
    · cases cur with
      | nil =>
        obtain ⟨groups, emitted, h1, h2, h3, h4, h5, h6, h7, h8⟩ :=
          ih [s] (wordCount s) chunks (by simp) (Or.inr ⟨s, rfl⟩)
        refine ⟨groups, emitted, ?_, ?_, h3, h4, h5, h6, h7, h8⟩
        · simpa [chunkLoop, hle] using h1
        · rw [h2]
          simp
      | cons c cur2 =>
        obtain ⟨groups, emitted, h1, h2, h3, h4, h5, h6, h7, h8⟩ :=
          ih [s] (wordCount s) (chunks ++ [mkChunk fn chunks.length (c :: cur2) size])
            (by simp) (Or.inr ⟨s, rfl⟩)
        refine ⟨(c :: cur2) :: groups, mkChunk fn chunks.length (c :: cur2) size :: emitted,
          ?_, ?_, ?_, ?_, ?_, ?_, ?_, ?_⟩
        · rw [show chunkLoop cs fn (s :: rest) (c :: cur2) size chunks
              = chunkLoop cs fn rest [s] (wordCount s)
                (chunks ++ [mkChunk fn chunks.length (c :: cur2) size]) by
            simp [chunkLoop, hle]]
          rw [h1]
          simp
        · rw [List.flatten_cons, h2]
          simp
        · intro g hg
          rcases List.mem_cons.mp hg with rfl | hg2
          · simp
          · exact h3 g hg2
        · simp [h4, mkChunk]
        · simp [h5, mkChunk, hsize]
        · simp only [List.map_cons, h6, mkChunk, List.length_cons, List.length_append,
            List.length_singleton]
          rfl
        · intro g hg
          rcases List.mem_cons.mp hg with rfl | hg2
          · rw [← hsize]
            exact hinv.imp id (fun h => h)
          · exact h7 g hg2
        · intro ch hch
          rcases List.mem_cons.mp hch with rfl | hch2
          · exact ⟨c :: cur2, by simp, by simp [mkChunk], by simp [mkChunk, hsize]⟩
          · obtain ⟨g, hg, hga, hgb⟩ := h8 ch hch2
            exact ⟨g, List.mem_cons_of_mem _ hg, hga, hgb⟩

/-- Claim C5.  The chunks of `chunk_text` partition the blank-line
sections of the input into groups; every chunk's word count is its
group's word-count sum, every group either fits the chunk-size budget or
is a single section, and hence every emitted chunk has word count at
most the budget except a chunk whose text is exactly one section whose
own word count exceeds the budget.  In particular no chunk combines an
oversized section with any other section: a chunk whose word count
exceeds the budget is a single section. -/
theorem claim5_chunk_size_bound (cs : Nat) (text fn : String) :
    ∃ groups : List (List String),
      groups.flatten = splitSections text ∧
      (chunk_text cs text fn).map Chunk.text = groups.map joinSections ∧
      (chunk_text cs text fn).map Chunk.word_count
        = groups.map (fun g => (g.map wordCount).sum) ∧
      (∀ g ∈ groups, (g.map wordCount).sum ≤ cs ∨ ∃ s, g = [s]) ∧
      (∀ c ∈ chunk_text cs text fn,
        c.word_count ≤ cs ∨
          (cs < c.word_count ∧ c.text ∈ splitSections text ∧
            c.word_count = wordCount c.text)) := by
  obtain ⟨groups, emitted, h1, h2, h3, h4, h5, h6, h7, h8⟩ :=
    chunkLoopSpec cs fn (splitSections text) [] 0 [] (by simp) (Or.inl (Nat.zero_le cs))
  have hemit : chunk_text cs text fn = emitted := by
    rw [chunk_text, h1]
    simp
  refine ⟨groups, by simpa using h2, by rw [hemit]; exact h4, by rw [hemit]; exact h5, h7, ?_⟩
  intro c hc
  rw [hemit] at hc
  obtain ⟨g, hg, hct, hcw⟩ := h8 c hc
  by_cases hbound : c.word_count ≤ cs
  · exact Or.inl hbound
  · rcases h7 g hg with hsum | ⟨s, rfl⟩
    · exact absurd (hcw ▸ hsum) hbound
    · refine Or.inr ⟨Nat.lt_of_not_le hbound, ?_, ?_⟩
      · have hts : c.text = s := by simpa [joinSections] using hct
        have h2w : groups.flatten = splitSections text := by simpa using h2
        rw [hts, ← h2w]
        exact List.mem_flatten.mpr ⟨[s], hg, by simp⟩
      · have hts : c.text = s := by simpa [joinSections] using hct
        rw [hts]
        simpa using hcw

/-- Claim C6.  The chunk texts of `chunk_text`, in chunk-id order, are
the blank-line joins of consecutive non-empty groups whose concatenation
is exactly the blank-line-delimited section sequence of the input — no
section dropped, duplicated or reordered — and each chunk's `chunk_id`
equals its 0-based position in the output list. -/
theorem claim6_segmentation_coverage (cs : Nat) (text fn : String) :
    ∃ groups : List (List String),
      (∀ g ∈ groups, g ≠ []) ∧
      groups.flatten = splitSections text ∧
      (chunk_text cs text fn).map Chunk.text = groups.map joinSections ∧
      (chunk_text cs text fn).map Chunk.chunk_id
        = List.range ((chunk_text cs text fn).length) := by
  obtain ⟨groups, emitted, h1, h2, h3, h4, h5, h6, h7, h8⟩ :=
    chunkLoopSpec cs fn (splitSections text) [] 0 [] (by simp) (Or.inl (Nat.zero_le cs))
  have hemit : chunk_text cs text fn = emitted := by
    rw [chunk_text, h1]
    simp
  refine ⟨groups, h3, by simpa using h2, by rw [hemit]; exact h4, ?_⟩
  rw [hemit, List.range_eq_range']
  simpa using h6

/-- Helper: membership in a stable descending insertion. -/
theorem mem_insertScoreDesc (key : α → ℚ) (x a : α) :
    ∀ l : List α, a ∈ insertScoreDesc key x l ↔ a = x ∨ a ∈ l := by
  intro l
  induction l with
  | nil => simp [insertScoreDesc]
  | cons y ys ih =>
    by_cases h : key x < key y
    · simp [insertScoreDesc, h, ih]
      tauto
    · simp [insertScoreDesc, h]

/-- Helper: the stable descending sort permutes its input, so membership
is preserved. -/
theorem mem_sortScoreDesc (key : α → ℚ) (a : α) :
    ∀ l : List α, a ∈ sortScoreDesc key l ↔ a ∈ l := by
  intro l
  induction l with
  | nil => simp [sortScoreDesc]
  | cons y ys ih => simp [sortScoreDesc, mem_insertScoreDesc, ih]

/-- Helper: inserting adds one element to the length. -/
theorem length_insertScoreDesc (key : α → ℚ) (x : α) :
    ∀ l : List α, (insertScoreDesc key x l).length = l.length + 1 := by
  intro l
  induction l with
  | nil => simp [insertScoreDesc]
  | cons y ys ih =>
    by_cases h : key x < key y
    · simp [insertScoreDesc, h, ih]
    · simp [insertScoreDesc, h]

/-- Helper: sorting preserves length. -/
theorem length_sortScoreDesc (key : α → ℚ) :
    ∀ l : List α, (sortScoreDesc key l).length = l.length := by
  intro l
  induction l with
  | nil => rfl
  | cons y ys ih => simp [sortScoreDesc, length_insertScoreDesc, ih]

/-- Helper: every hit an index search returns carries the payload of a
stored point. -/
theorem clientSearch_payload {π : Type} (pts : List (π × (String → ℚ))) (q : String)
    (lim : Nat) (θ : ℚ) (p : π) (sc : ℚ) (h : (p, sc) ∈ clientSearch pts q lim θ) :
    ∃ g, (p, g) ∈ pts := by
  have h1 : (p, sc) ∈ sortScoreDesc Prod.snd ((pts.map (fun x => (x.1, x.2 q))).filter
      (fun x => θ ≤ x.2)) := List.mem_of_mem_take h
  rw [mem_sortScoreDesc] at h1
  have h2 := List.mem_of_mem_filter h1
  obtain ⟨x, hx, he⟩ := List.mem_map.mp h2
  exact ⟨x.2, by cases he; exact hx⟩

/-- Helper: a text search returns only text result dicts. -/
theorem searchTextSimilar_text (w : World) (q : String) (lim : Nat) :
    ∀ c ∈ search_text_similar w q lim, c.isText = true := by
  intro c hc
  obtain ⟨h, _, he⟩ := List.mem_map.mp hc
  subst he
  rfl

/-- Claim C2.  For an image index populated by `QdrantService.add_images`
(payloads hold only image_path, caption, page_number, pdf_filename),
any non-empty hit list of `search_images_similar` raises `KeyError` on
the missing payload key 'image_filename' (the first of the four missing
keys read), the method surfaces an error, and consequently the visual
branch of `search_documents` never returns an image candidate — on an
image hit the whole search is recovered as the empty list by the
catch-all handler. -/
theorem claim2_image_payload_keys_missing (w : World) (q : String) (topk lim : Nat)
    (hpay : ∀ p ∈ w.imagePoints, ∃ info, p.1 = addImagesPayload info) :
    (clientSearch w.imagePoints q lim IMAGE_THRESHOLD ≠ [] →
      searchImagesSimilarBody w q lim = .error (.keyError "image_filename") ∧
      ∃ e, search_images_similar w q lim = .error e) ∧
    (∀ c ∈ search_documents embedOk w q topk, c.isImage = false) := by
  have hbody : ∀ (lim2 : Nat) (hits : List (ImagePayload × ℚ)),
      hits = clientSearch w.imagePoints q lim2 IMAGE_THRESHOLD → hits ≠ [] →
      searchImagesSimilarBody w q lim2 = .error (.keyError "image_filename") := by
    intro lim2 hits hh hne
    cases hits with
    | nil => exact absurd rfl hne
    | cons h t =>
      obtain ⟨g, hmem⟩ := clientSearch_payload w.imagePoints q lim2 IMAGE_THRESHOLD h.1 h.2
        (by rw [← hh]; exact List.mem_cons_self _ _)
      obtain ⟨info, hinfo⟩ := hpay (h.1, g) hmem
      have hres : imageHitResult h.1 h.2 = .error (.keyError "image_filename") := by
        simp at hinfo
        rw [hinfo, addImagesPayload]
        rfl
      rw [searchImagesSimilarBody, ← hh]
      simp only [mapExcept, hres]
      rfl
  constructor
  · intro hne
    have h1 := hbody lim _ rfl hne
    refine ⟨h1, ?_⟩
    rw [search_images_similar, h1]
    exact ⟨_, rfl⟩
  · intro c hc
    rw [search_documents] at hc
    by_cases hvis : is_visual_query q
    · cases hhits : clientSearch w.imagePoints q 5 IMAGE_THRESHOLD with
      | nil =>
        have hempty : searchImagesSimilarBody w q 5 = .ok [] := by
          rw [searchImagesSimilarBody, hhits]
          rfl
        have himg : search_images_similar w q 5 = .ok [] := by
          rw [search_images_similar, hempty]
        have hmm : search_multimodal w q topk 5 = .ok (search_text_similar w q topk, []) := by
          rw [search_multimodal, himg]
        rw [searchDocumentsBody] at hc
        simp [embedOk, hvis, hmm, Bind.bind, Except.bind] at hc
        have hc2 := List.mem_of_mem_take hc
        rw [mem_sortScoreDesc] at hc2
        try simp at hc2
        have := searchTextSimilar_text w q topk c hc2
        cases c with
        | text a b d e f => rfl
        | image a b d e f g h i j => simp [Candidate.isText] at this
      | cons h t =>
        have h1 := hbody 5 _ hhits.symm (by simp)
        have himg : ∃ e, search_images_similar w q 5 = .error e := by
          rw [search_images_similar, h1]
          exact ⟨_, rfl⟩
        obtain ⟨e, he⟩ := himg
        have hmm : ∃ e2, search_multimodal w q topk 5 = .error e2 := by
          rw [search_multimodal, he]
          exact ⟨_, rfl⟩
        obtain ⟨e2, he2⟩ := hmm
        rw [searchDocumentsBody] at hc
        simp [embedOk, hvis, he2, Bind.bind, Except.bind] at hc
    · rw [searchDocumentsBody] at hc
      simp [embedOk, hvis, Bind.bind, Except.bind] at hc
      have := searchTextSimilar_text w q topk c hc
      cases c with
      | text a b d e f => rfl
      | image a b d e f g h i j => simp [Candidate.isText] at this

/-- Claim C2 witness: one concrete image ingested by the pipeline, a
visual query that hits it, the `KeyError` raised, and the absence of
image candidates in the `search_documents` output. -/
theorem claim2_witness :
    (∀ p ∈ imgWorld.imagePoints, ∃ info, p.1 = addImagesPayload info) ∧
    clientSearch imgWorld.imagePoints "show me the figure" 5 IMAGE_THRESHOLD ≠ [] ∧
    searchImagesSimilarBody imgWorld "show me the figure" 5
      = .error (.keyError "image_filename") ∧
    (∀ c ∈ search_documents embedOk imgWorld "show me the figure" 2, c.isImage = false) := by
  have hpay : ∀ p ∈ imgWorld.imagePoints, ∃ info, p.1 = addImagesPayload info := by
    intro p hp
    simp [imgWorld] at hp
    exact ⟨imgInfo0, by rw [hp]⟩
  have h := claim2_image_payload_keys_missing imgWorld "show me the figure" 2 5 hpay
  have hne : clientSearch imgWorld.imagePoints "show me the figure" 5 IMAGE_THRESHOLD ≠ [] := by
    decide
  exact ⟨hpay, hne, (h.1 hne).1, h.2⟩

/-- Claim C4 counterexample.  With query `alpha` (one keyword) and
`top_k = 4` over a four-point index, the Stage 1 broad search is issued
with limit 16 (`top_k * 4`), not `top_k`; no search with limit `top_k`
is issued at all; and the keyword search (limit `top_k * 2 = 8`) is
issued even though Stage 1 yields 4 results, which is not fewer than
`top_k / 2 = 2`. -/
theorem claim4_counterexample :
    (smartRetrievalCalls fourDocWorld "alpha" 4).head?
      = some (.text "alpha" 16 SCORE_THRESHOLD) ∧
    SearchCall.text "alpha" 4 SCORE_THRESHOLD ∉ smartRetrievalCalls fourDocWorld "alpha" 4 ∧
    SearchCall.text "alpha" 8 SCORE_THRESHOLD ∈ smartRetrievalCalls fourDocWorld "alpha" 4 ∧
    4 / 2 ≤ (search_text_similar fourDocWorld "alpha" (4 * 4)).length := by decide

/-- Claim C4 amended.  Stage 1 issues a single broad similarity search
with limit `top_k * 4` (it is always the first search issued), and the
Stage 2 per-keyword searches (each with limit `top_k * 2`) are issued
for every extracted keyword unconditionally — the code never compares
Stage 1's yield against `top_k / 2`. -/
theorem claim4_stage_limits (w : World) (q : String) (topk : Nat) (kw : String)
    (hkw : kw ∈ extract_keywords q) (hvis : is_visual_query kw = false) :
    (smartRetrievalCalls w q topk).head? = some (.text q (topk * 4) SCORE_THRESHOLD) ∧
    SearchCall.text kw (topk * 2) SCORE_THRESHOLD ∈ smartRetrievalCalls w q topk := by
  constructor
  · rfl
  · rw [smartRetrievalCalls]
    simp only [List.mem_append]
    refine Or.inl (Or.inl (Or.inr ?_))
    refine List.mem_flatten.mpr
      ⟨searchDocumentsCalls kw (topk * 2), List.mem_map_of_mem _ hkw, ?_⟩
    simp [searchDocumentsCalls, hvis]

/-- Claim C4 witness: the concrete query `alpha` over the four-point
index. -/
theorem claim4_witness :
    ("alpha" ∈ extract_keywords "alpha") ∧
    (is_visual_query "alpha" = false) ∧
    (smartRetrievalCalls fourDocWorld "alpha" 4).head?
      = some (.text "alpha" (4 * 4) SCORE_THRESHOLD) ∧
    SearchCall.text "alpha" (4 * 2) SCORE_THRESHOLD
      ∈ smartRetrievalCalls fourDocWorld "alpha" 4 := by
  have h := claim4_stage_limits fourDocWorld "alpha" 4 "alpha" (by decide) (by decide)
  exact ⟨by decide, by decide, h.1, h.2⟩

/-- Helper: any successful `_smart_retrieval` body result is a
score-sorted list truncated to `top_k * 3`. -/
theorem smartRetrievalBody_ok_shape (ec : EmbedCall) (w : World) (q : String) (topk : Nat)
    (r : List Candidate) (h : smartRetrievalBody ec w q topk = .ok r) :
    ∃ u, r = (sortScoreDesc Candidate.score u).take (topk * 3) := by
  rw [smartRetrievalBody] at h
  cases hec : ec q with
  | error e =>
    rw [hec] at h
    simp [Bind.bind, Except.bind] at h
  | ok u0 =>
    rw [hec] at h
    simp only [Bind.bind, Except.bind] at h
    split at h
    · split at h
      · simp at h
      · split at h
        · simp at h
        · injection h with h2
          exact ⟨_, h2.symm⟩
    · split at h
      · simp at h
      · split at h
        · simp at h
        · injection h with h2
          exact ⟨_, h2.symm⟩

/-- Helper: a successful `search_documents` body result is a score-sorted
list truncated to `top_k + 5` on the visual branch and a plain text
search with limit `top_k` otherwise. -/
theorem searchDocumentsBody_ok_shape (ec : EmbedCall) (w : World) (q : String) (topk : Nat)
    (r : List Candidate) (h : searchDocumentsBody ec w q topk = .ok r) :
    (is_visual_query q = true →
      ∃ u, r = (sortScoreDesc Candidate.score u).take (topk + 5)) ∧
    (is_visual_query q = false → r = search_text_similar w q topk) := by
  rw [searchDocumentsBody] at h
  cases hec : ec q with
  | error e =>
    rw [hec] at h
    simp [Bind.bind, Except.bind] at h
  | ok u0 =>
    rw [hec] at h
    simp only [Bind.bind, Except.bind] at h
    by_cases hvis : is_visual_query q
    · rw [if_pos hvis] at h
      constructor
      · intro _
        split at h
        · injection h with h2
          exact ⟨_, h2.symm⟩
        · exact Except.noConfusion h
      · intro hfalse
        rw [hvis] at hfalse
        cases hfalse
    · rw [if_neg hvis] at h
      constructor
      · intro htrue
        rw [htrue] at hvis
        exact absurd rfl hvis
      · intro _
        injection h with h2
        exact h2.symm

/-- Claim C8 amended.  `search_documents` truncates its fused,
score-sorted list to the budget `top_k + 5` (strictly larger than
`top_k`) for visual-intent queries and returns at most `top_k` results
otherwise; `_smart_retrieval`, however, truncates to `top_k * 3` for
every query, regardless of the visual classification — not to exactly
`top_k` for non-visual queries. -/
theorem claim8_truncation_budgets (ec : EmbedCall) (w : World) (q : String) (topk : Nat) :
    (smart_retrieval ec w q topk).length ≤ topk * 3 ∧
    (is_visual_query q = false → (search_documents ec w q topk).length ≤ topk) ∧
    (is_visual_query q = true → (search_documents ec w q topk).length ≤ topk + 5) := by
  refine ⟨?_, ?_, ?_⟩
  · rw [smart_retrieval]
    cases hb : smartRetrievalBody ec w q topk with
    | error e => simp
    | ok r =>
      obtain ⟨u, hu⟩ := smartRetrievalBody_ok_shape ec w q topk r hb
      simp [hu]
  · intro hvis
    rw [search_documents]
    cases hb : searchDocumentsBody ec w q topk with
    | error e => simp
    | ok r =>
      have hr := (searchDocumentsBody_ok_shape ec w q topk r hb).2 hvis
      simp only [hr, search_text_similar, List.length_map]
      exact le_trans (List.length_take_le _ _) le_rfl
  · intro hvis
    rw [search_documents]
    cases hb : searchDocumentsBody ec w q topk with
    | error e => simp
    | ok r =>
      obtain ⟨u, hu⟩ := (searchDocumentsBody_ok_shape ec w q topk r hb).1 hvis
      simp [hu]

/-- Claim C8 counterexample.  With the non-visual query `zz`,
`top_k = 1` and a three-point index, `_smart_retrieval` (under a working
embedding provider) returns 3 results — more than `top_k` — so the
claim's `exactly top_k otherwise` fails at the `_smart_retrieval` fusion
site. -/
theorem claim8_counterexample :
    is_visual_query "zz" = false ∧
    (smart_retrieval embedOk threeDocWorld "zz" 1).length = 3 ∧
    ¬ (smart_retrieval embedOk threeDocWorld "zz" 1).length ≤ 1 := by decide

/-- Claim C8 witness: concrete budgets at the non-visual query `zz`. -/
theorem claim8_witness :
    ((smart_retrieval embedOk threeDocWorld "zz" 1).length ≤ 1 * 3) ∧
    (is_visual_query "zz" = false) ∧
    ((search_documents embedOk threeDocWorld "zz" 1).length ≤ 1) := by
  have h := claim8_truncation_budgets embedOk threeDocWorld "zz" 1
  exact ⟨h.1, by decide, h.2.1 (by decide)⟩

/-- Helper: building sources from an all-text doc list never raises and
preserves length. -/
theorem mapExcept_docSource_ok : ∀ (l : List Candidate), (∀ d ∈ l, d.isText = true) →
    ∃ srcs, mapExcept docSource l = .ok srcs ∧ srcs.length = l.length := by
  intro l
  induction l with
  | nil => exact fun _ => ⟨[], rfl, rfl⟩
  | cons d ds ih =>
    intro h
    have hd : d.isText = true := h d (by simp)
    obtain ⟨srcs, hs, hl⟩ := ih (fun x hx => h x (by simp [hx]))
    cases d with
    | image a b c e f g i j k => simp [Candidate.isText] at hd
    | text t fn cid wc sc =>
      refine ⟨{ filename := fn, chunk_id := cid, score := sc } :: srcs, ?_, by simp [hl]⟩
      simp [mapExcept, docSource, hs, Bind.bind, Except.bind, Pure.pure, Except.pure]

/-- Claim C10 counterexample.  On the generation-failure path the answer
object does not have an empty source list and zero confidence: with one
retrieved document of score 4/5 and a failing generation call,
`generate_answer` returns the Gemini error text as the answer but keeps
the retrieved source and the average score 4/5 as confidence. -/
theorem claim10_counterexample :
    (generate_answer [tCand3] (.error "boom")).answer
      = "Error generating answer with Gemini: boom" ∧
    (generate_answer [tCand3] (.error "boom")).sources
      = [{ filename := "f.pdf", chunk_id := 0, score := mkRat 4 5 }] ∧
    (generate_answer [tCand3] (.error "boom")).sources ≠ [] ∧
    (generate_answer [tCand3] (.error "boom")).confidence ≠ 0 := by
  refine ⟨by decide, by decide, by decide, ?_⟩
  have hc : (generate_answer [tCand3] (.error "boom")).confidence
      = (mkRat 4 5 + 0) / ((1 : Nat) : ℚ) := rfl
  rw [hc]
  norm_num [Rat.mkRat_eq_div]

/-- Claim C10 amended.  `generate_answer` never raises (its body
succeeds on every all-text retrieval outcome and the catch-all absorbs
anything else).  A retrieval failure is recovered inside
`_smart_retrieval` as an empty list, and on empty retrieval the answer
object carries the explanatory no-information message, an empty source
list and confidence 0.  On a generation failure, however, the error is
converted into the answer text while the sources (the top
`min(MAX_CONTEXT_CHUNKS, len(docs))` retrieved documents — non-empty)
and the average-score confidence are kept. -/
theorem claim10_failure_paths (docs : List Candidate) (gen : Except String String)
    (hdocs : ∀ d ∈ docs, d.isText = true) :
    (docs = [] → generate_answer docs gen = noInfoAnswer) ∧
    (∃ a, generateAnswerBody docs gen = .ok a) ∧
    (∀ e, gen = .error e → docs ≠ [] →
      (generate_answer docs gen).answer = "Error generating answer with Gemini: " ++ e ∧
      (generate_answer docs gen).sources.length = min MAX_CONTEXT_CHUNKS docs.length ∧
      (generate_answer docs gen).sources ≠ []) := by
  obtain ⟨srcs, hs, hl⟩ := mapExcept_docSource_ok (docs.take (min MAX_CONTEXT_CHUNKS docs.length))
    (fun d hd => hdocs d (List.mem_of_mem_take hd))
  refine ⟨?_, ?_, ?_⟩
  · intro he
    subst he
    rfl
  · cases docs with
    | nil => exact ⟨noInfoAnswer, rfl⟩
    | cons d ds =>
      rw [generateAnswerBody]
      simp only [List.isEmpty_cons, Bind.bind, Except.bind, hs]
      exact ⟨_, rfl⟩
  · intro e hgen hne
    subst hgen
    cases docs with
    | nil => exact absurd rfl hne
    | cons d ds =>
      have hbody : generateAnswerBody (d :: ds) (.error e) = .ok
          { answer := generate_with_gemini (.error e)
            sources := srcs
            confidence := ((((d :: ds).take (min MAX_CONTEXT_CHUNKS (d :: ds).length)).map
              Candidate.score).sum) / ((min MAX_CONTEXT_CHUNKS (d :: ds).length : Nat) : ℚ)
            retrieved_docs_count := some (d :: ds).length
            context_chunks_used := some (min MAX_CONTEXT_CHUNKS (d :: ds).length) } := by
        rw [generateAnswerBody]
        simp only [List.isEmpty_cons, Bind.bind, Except.bind, hs]
        rfl
      have hga : generate_answer (d :: ds) (.error e)
          = { answer := generate_with_gemini (.error e)
              sources := srcs
              confidence := ((((d :: ds).take (min MAX_CONTEXT_CHUNKS (d :: ds).length)).map
                Candidate.score).sum) / ((min MAX_CONTEXT_CHUNKS (d :: ds).length : Nat) : ℚ)
              retrieved_docs_count := some (d :: ds).length
              context_chunks_used := some (min MAX_CONTEXT_CHUNKS (d :: ds).length) } := by
        rw [generate_answer, hbody]
      rw [hga]
      refine ⟨rfl, ?_, ?_⟩
      · simp only [hl, List.length_take]
        simp [Nat.min_assoc]
      · have hpos : 0 < srcs.length := by
          rw [hl, List.length_take]
          simp [MAX_CONTEXT_CHUNKS]
        intro hnil
        simp only [] at hnil
        rw [hnil] at hpos
        simp at hpos

/-- Claim C10 witness: one retrieved text document and a failing
generation call. -/
theorem claim10_witness :
    (∀ d ∈ [tCand3], d.isText = true) ∧
    (∃ a, generateAnswerBody [tCand3] (.error "boom") = .ok a) ∧
    ((generate_answer [tCand3] (.error "boom")).answer
        = "Error generating answer with Gemini: " ++ "boom" ∧
      (generate_answer [tCand3] (.error "boom")).sources.length
        = min MAX_CONTEXT_CHUNKS ([tCand3] : List Candidate).length ∧
      (generate_answer [tCand3] (.error "boom")).sources ≠ []) := by
  have h := claim10_failure_paths [tCand3] (.error "boom") (by decide)
  exact ⟨by decide, h.2.1, h.2.2 "boom" rfl (by simp)⟩

end RAG
